import Mathlib

/-!
Verification of the documentation-site build step: a batch converter that
renders Markdown guideline documents to HTML pages through a fixed template
(source: src/convert.js).

Strings are modelled as lists of characters; filesystem paths as lists of
path segments.  The filesystem is an association list of files plus a list
of existing directories.  The converter is embedded as a state-passing
function that also records a trace of its effectful steps.
-/

set_option autoImplicit false

abbrev Str := List Char

abbrev FPath := List Str

/-- The dollar character, head of replacement escape sequences in the
JavaScript string `replace` method. -/
def dollarC : Char := Char.ofNat 36

/-- The backquote character (code 96). -/
def backqC : Char := Char.ofNat 96

/-- The single-quote character (code 39). -/
def quoteC : Char := Char.ofNat 39

/-- `isPre p s` decides whether the list `p` is a prefix of `s`. -/
def isPre : Str → Str → Bool
  | [], _ => true
  | _ :: _, [] => false
  | c :: cs, d :: ds => if c = d then isPre cs ds else false

/-- Split `s` at the first occurrence of `pat`: returns the part before and
the part after that occurrence, mirroring `String.prototype.indexOf`. -/
def splitFirst (pat : Str) : Str → Option (Str × Str)
  | [] => if isPre pat [] then some ([], []) else none
  | c :: rest =>
    if isPre pat (c :: rest) then some ([], List.drop pat.length (c :: rest))
    else
      match splitFirst pat rest with
      | none => none
      | some (b, a) => some (c :: b, a)

/-- `GetSubstitution` of the ECMAScript specification, restricted to a string
search (no capture groups): expands the escapes dollar-dollar, dollar-ampersand,
dollar-backquote and dollar-quote inside the replacement string `repl`;
`m` is the matched text, `b` the part before the match, `a` the part after. -/
def getSub (m b a : Str) : Str → Str
  | [] => []
  | [c] => [c]
  | c :: d :: rest2 =>
    if c = dollarC then
      if d = dollarC then dollarC :: getSub m b a rest2
      else if d = '&' then m ++ getSub m b a rest2
      else if d = backqC then b ++ getSub m b a rest2
      else if d = quoteC then a ++ getSub m b a rest2
      else c :: d :: getSub m b a rest2
    else c :: getSub m b a (d :: rest2)

/-- The JavaScript expression `s.replace(pat, repl)` with string arguments:
replace the first occurrence of `pat` in `s` by `repl`, after expanding the
replacement escape sequences of `repl`. -/
def jsReplace (s pat repl : Str) : Str :=
  match splitFirst pat s with
  | none => s
  | some (b, a) => b ++ getSub pat b a repl ++ a

/-- Number of (possibly overlapping) occurrences of `pat` in `s`: the number
of positions of `s` at which `pat` starts. -/
def countOcc (pat : Str) : Str → Nat
  | [] => if isPre pat [] then 1 else 0
  | c :: rest => (if isPre pat (c :: rest) then 1 else 0) + countOcc pat rest

/-- A replacement string is escape-free when it contains none of the escape
sequences recognised by `getSub`; on such strings `getSub` is the identity. -/
def escFree : Str → Bool
  | [] => true
  | [_] => true
  | c :: d :: rest2 =>
    if c = dollarC then
      if d = dollarC ∨ d = '&' ∨ d = backqC ∨ d = quoteC then false
      else escFree (d :: rest2)
    else escFree (d :: rest2)

/-! ## Filesystem model -/

/-- Lookup of a file content by path in an association list. -/
def lookupF : List (FPath × Str) → FPath → Option Str
  | [], _ => none
  | (q, c) :: rest, p => if q = p then some c else lookupF rest p

/-- Replace the content at path `p`, or append the binding when absent. -/
def setF : List (FPath × Str) → FPath → Str → List (FPath × Str)
  | [], p, c => [(p, c)]
  | (q, d) :: rest, p, c => if q = p then (p, c) :: rest else (q, d) :: setF rest p c

/-- Boolean membership of a path in a list of paths. -/
def memP : FPath → List FPath → Bool
  | _, [] => false
  | p, q :: rest => if q = p then true else memP p rest

/-- All nonempty initial segments of a path, shortest first; these are the
directories that a recursive directory creation brings into existence. -/
def initSegs : FPath → List FPath
  | [] => []
  | s :: rest => [s] :: (initSegs rest).map (fun q => s :: q)

/-- Append the paths of `ps` that are not already present to `ds`. -/
def addDirs : List FPath → List FPath → List FPath
  | ds, [] => ds
  | ds, q :: ps => addDirs (if memP q ds then ds else ds ++ [q]) ps

/-- The filesystem: an association list of regular files with their contents,
and the list of existing directories (the root `[]` always exists). -/
structure FS where
  files : List (FPath × Str)
  dirs : List FPath
deriving DecidableEq

/-- Content of the regular file at `p`, when one exists. -/
def FS.readFile (fs : FS) (p : FPath) : Option Str :=
  lookupF fs.files p

/-- Does a regular file exist at `p`? -/
def FS.isFile (fs : FS) (p : FPath) : Bool :=
  (fs.readFile p).isSome

/-- Does a directory exist at `p`?  The root always exists. -/
def FS.isDir (fs : FS) (p : FPath) : Bool :=
  decide (p = []) || memP p fs.dirs

/-- `fs.existsSync(p)` of Node.js: something (file or directory) exists at `p`. -/
def FS.existsSync (fs : FS) (p : FPath) : Bool :=
  fs.isFile p || fs.isDir p

/-- `fs.mkdirSync(p, { recursive: true })`: create the directory and every
missing ancestor; fails when a regular file occupies `p` or an ancestor. -/
def FS.mkdirRec (fs : FS) (p : FPath) : Option FS :=
  if (initSegs p).all (fun q => !fs.isFile q) then
    some ⟨fs.files, addDirs fs.dirs (initSegs p)⟩
  else none

/-- `fs.writeFileSync(p, c)`: overwrite or create the regular file at `p`;
fails when `p` is a directory or the parent directory does not exist. -/
def FS.writeFile (fs : FS) (p : FPath) (c : Str) : Option FS :=
  if fs.isDir p then none
  else if fs.isDir p.dropLast then some ⟨setF fs.files p c, fs.dirs⟩
  else none

/-- `ensureDirectoryExists` of src/convert.js: create the directory (with all
ancestors) only when nothing exists at that path yet. -/
def ensureDirectoryExists (fs : FS) (dirPath : FPath) : Option FS :=
  if fs.existsSync dirPath then some fs
  else fs.mkdirRec dirPath

/-! ## The converter -/

/-- One effectful step of a conversion, for the trace. -/
inductive Ev where
  | readF (p : FPath)
  | render
  | mkDirs (p : FPath)
  | writeF (p : FPath) (c : Str)
deriving DecidableEq

/-- Program state: the filesystem, the console lines printed so far, and the
trace of effectful steps taken so far. -/
structure St where
  fs : FS
  out : List Str
  tr : List Ev
deriving DecidableEq

/-- The fixed template location `src/template.html`. -/
def templatePath : FPath := ["src".toList, "template.html".toList]

/-- The placeholder token of the template. -/
def contentToken : Str := "\x7b\x7bcontent\x7d\x7d".toList

/-- The extension `.md`. -/
def mdExt : Str := ".md".toList

/-- The extension `.html`. -/
def htmlExt : Str := ".html".toList

/-- `convertToHtml` of src/convert.js: read the source, render it, read the
template fresh, ensure the parent directory of the target, and write the
template with its placeholder substituted by the rendered HTML.  An error
result carries the state at the moment the exception was raised. -/
def convertToHtml (render : Str → Str) (mdPath targetPath : FPath) (st : St) :
    Except St St :=
  match st.fs.readFile mdPath with
  | none => .error st
  | some md =>
    let st1 : St := { st with tr := st.tr ++ [.readF mdPath] }
    let html := render md
    let st2 : St := { st1 with tr := st1.tr ++ [.render] }
    match st2.fs.readFile templatePath with
    | none => .error st2
    | some tmpl =>
      let st3 : St := { st2 with tr := st2.tr ++ [.readF templatePath] }
      match ensureDirectoryExists st3.fs targetPath.dropLast with
      | none => .error st3
      | some fs4 =>
        let st4 : St := { st3 with fs := fs4, tr := st3.tr ++ [.mkDirs targetPath.dropLast] }
        match st4.fs.writeFile targetPath (jsReplace tmpl contentToken html) with
        | none => .error st4
        | some fs5 =>
          .ok { st4 with fs := fs5,
                         tr := st4.tr ++ [.writeF targetPath (jsReplace tmpl contentToken html)] }

/-- Render a path as the string Node.js `path.join` produces (segments joined
by a slash). -/
def pathStr : FPath → Str
  | [] => []
  | [s] => s
  | s :: rest => s ++ '/' :: pathStr rest

/-- The console line printed for one successful conversion. -/
def logLine (s t : FPath) : Str :=
  "Converted ".toList ++ pathStr s ++ " to ".toList ++ pathStr t

/-- One iteration of a manifest loop of src/convert.js: resolve the source and
target paths, and when the source exists convert it and print the progress
line; otherwise do nothing. -/
def stepConvert (render : Str → Str) (srcRoot tgtRoot : FPath) (st : St)
    (file : Str) : Except St St :=
  let sourcePath := srcRoot ++ [file]
  let targetPath := tgtRoot ++ [jsReplace file mdExt htmlExt]
  if st.fs.existsSync sourcePath then
    match convertToHtml render sourcePath targetPath st with
    | .error e => .error e
    | .ok st1 => .ok { st1 with out := st1.out ++ [logLine sourcePath targetPath] }
  else .ok st

/-- A manifest loop (`forEach`) of src/convert.js: process the files in order,
aborting on the first uncaught error. -/
def processList (render : Str → Str) (srcRoot tgtRoot : FPath) (files : List Str)
    (st : St) : Except St St :=
  match files with
  | [] => .ok st
  | f :: rest =>
    match stepConvert render srcRoot tgtRoot st f with
    | .error e => .error e
    | .ok st1 => processList render srcRoot tgtRoot rest st1

/-- The fixed guideline manifest of src/convert.js. -/
def guidelines : List Str :=
  ["01-component-guidelines.md".toList,
   "02-scss-guidelines.md".toList,
   "03-template-guidelines.md".toList,
   "04-store-ngrx-guidelines.md".toList,
   "05-services-guidelines.md".toList,
   "06-directives-pipes-guidelines.md".toList]

/-- The fixed process-document manifest of src/convert.js. -/
def processFiles : List Str := ["pr-submission-process.md".toList]

/-- Source root of the guideline manifest. -/
def gSrcRoot : FPath := ["src".toList, "guidelines".toList]

/-- Target root of the guideline manifest. -/
def gTgtRoot : FPath := ["docs".toList, "guidelines".toList]

/-- Source root of the process manifest. -/
def pSrcRoot : FPath := ["src".toList, "process".toList]

/-- Target root of the process manifest. -/
def pTgtRoot : FPath := ["docs".toList, "process".toList]

/-- The whole script: the guideline loop followed by the process loop. -/
def run (render : Str → Str) (st : St) : Except St St :=
  match processList render gSrcRoot gTgtRoot guidelines st with
  | .error e => .error e
  | .ok st1 => processList render pSrcRoot pTgtRoot processFiles st1

/-! ## String lemmas -/

theorem isPre_iff (p : Str) : ∀ s : Str, isPre p s = true ↔ ∃ t, s = p ++ t := by
  induction p with
  | nil => intro s; simp [isPre]
  | cons c cs ih =>
    intro s
    cases s with
    | nil => simp [isPre]
    | cons d ds =>
      constructor
      · intro hf
        rw [isPre] at hf
        by_cases h : c = d
        · subst h
          rw [if_pos rfl] at hf
          obtain ⟨t, ht⟩ := (ih ds).1 hf
          exact ⟨t, by simp [ht]⟩
        · rw [if_neg h] at hf; cases hf
      · rintro ⟨t, ht⟩
        rw [List.cons_append] at ht
        injection ht with h1 h2
        subst h1
        rw [isPre, if_pos rfl]
        exact (ih ds).2 ⟨t, h2⟩

theorem splitFirst_of_isPre (pat s : Str) (h : isPre pat s = true) :
    splitFirst pat s = some ([], s.drop pat.length) := by
  cases s with
  | nil => simp [splitFirst, h]
  | cons c rest => simp [splitFirst, h]

theorem countOcc_ge_one_of_isPre (pat s : Str) (h : isPre pat s = true) :
    1 ≤ countOcc pat s := by
  cases s with
  | nil => simp [countOcc, h]
  | cons c rest => simp [countOcc, h]

theorem countOcc_ge_one (pat b a : Str) : 1 ≤ countOcc pat (b ++ (pat ++ a)) := by
  induction b with
  | nil =>
    apply countOcc_ge_one_of_isPre
    exact (isPre_iff pat ([] ++ (pat ++ a))).2 ⟨a, by simp⟩
  | cons c b' ih =>
    rw [List.cons_append, countOcc]
    omega

theorem splitFirst_of_countOcc_one (pat b a : Str)
    (h : countOcc pat (b ++ (pat ++ a)) = 1) :
    splitFirst pat (b ++ (pat ++ a)) = some (b, a) := by
  induction b with
  | nil =>
    rw [List.nil_append,
      splitFirst_of_isPre pat (pat ++ a) ((isPre_iff pat (pat ++ a)).2 ⟨a, rfl⟩)]
    simp [List.drop_left]
  | cons c b' ih =>
    rw [List.cons_append] at h ⊢
    rw [countOcc] at h
    have htail := countOcc_ge_one pat b' a
    have hpre : ¬ isPre pat (c :: (b' ++ (pat ++ a))) = true := by
      intro hp
      rw [if_pos hp] at h; omega
    have h1 : countOcc pat (b' ++ (pat ++ a)) = 1 := by
      rw [if_neg hpre] at h; omega
    rw [splitFirst, if_neg hpre, ih h1]

theorem escFree_tail (d : Char) (t : Str) (hd : ¬ d = dollarC)
    (h : escFree (d :: t) = true) : escFree t = true := by
  cases t with
  | nil => rfl
  | cons e r => rw [escFree, if_neg hd] at h; exact h

theorem getSub_of_escFree (m b a : Str) :
    ∀ repl : Str, escFree repl = true → getSub m b a repl = repl := by
  have H : ∀ n (r : Str), r.length ≤ n → escFree r = true → getSub m b a r = r := by
    intro n
    induction n with
    | zero =>
      intro r hlen _
      cases r with
      | nil => rfl
      | cons c rest => simp at hlen
    | succ n ih =>
      intro r hlen hf
      match r with
      | [] => rfl
      | [c] => rfl
      | c :: d :: rest2 =>
        by_cases hc : c = dollarC
        · rw [escFree, if_pos hc] at hf
          by_cases hd : d = dollarC ∨ d = '&' ∨ d = backqC ∨ d = quoteC
          · rw [if_pos hd] at hf; cases hf
          · rw [if_neg hd] at hf
            push_neg at hd
            obtain ⟨hd1, hd2, hd3, hd4⟩ := hd
            have hf2 : escFree rest2 = true := escFree_tail d rest2 hd1 hf
            rw [getSub, if_pos hc, if_neg hd1, if_neg hd2, if_neg hd3, if_neg hd4]
            rw [ih rest2 (by simp at hlen; omega) hf2]
        · rw [escFree, if_neg hc] at hf
          rw [getSub, if_neg hc, ih (d :: rest2) (by simp at hlen ⊢; omega) hf]
  intro repl
  exact H repl.length repl le_rfl

theorem jsReplace_insert (pat b a repl : Str)
    (h1 : countOcc pat (b ++ (pat ++ a)) = 1) (h2 : escFree repl = true) :
    jsReplace (b ++ (pat ++ a)) pat repl = b ++ repl ++ a := by
  have hs := splitFirst_of_countOcc_one pat b a h1
  simp [jsReplace, hs, getSub_of_escFree pat b a repl h2]

/-! ## Filesystem lemmas -/

theorem lookupF_setF_self (l : List (FPath × Str)) (p : FPath) (c : Str) :
    lookupF (setF l p c) p = some c := by
  induction l with
  | nil => simp [setF, lookupF]
  | cons e rest ih =>
    obtain ⟨q, d⟩ := e
    by_cases h : q = p
    · simp [setF, h, lookupF]
    · simp [setF, h, lookupF, ih]

theorem memP_append_self (q : FPath) (ds : List FPath) :
    memP q (ds ++ [q]) = true := by
  induction ds with
  | nil => simp [memP]
  | cons r rest ih => by_cases h : r = q <;> simp [memP, h, ih]

theorem memP_append_left (q : FPath) (ds l : List FPath)
    (h : memP q ds = true) : memP q (ds ++ l) = true := by
  induction ds with
  | nil => cases h
  | cons r rest ih =>
    rw [memP] at h
    by_cases hr : r = q
    · simp [memP, hr]
    · rw [if_neg hr] at h
      simpa [memP, hr] using ih h

theorem memP_addDirs_left (q : FPath) (ps : List FPath) :
    ∀ ds, memP q ds = true → memP q (addDirs ds ps) = true := by
  induction ps with
  | nil => intro ds h; simpa [addDirs] using h
  | cons r ps' ih =>
    intro ds h
    rw [addDirs]
    by_cases hr : memP r ds = true
    · rw [if_pos hr]; exact ih ds h
    · rw [if_neg hr]; exact ih _ (memP_append_left q ds [r] h)

theorem memP_addDirs_of_mem (q : FPath) (ps : List FPath) :
    ∀ ds, q ∈ ps → memP q (addDirs ds ps) = true := by
  induction ps with
  | nil => intro ds h; cases h
  | cons r ps' ih =>
    intro ds h
    rw [addDirs]
    rcases List.mem_cons.1 h with hq | hq
    · subst hq
      by_cases hr : memP q ds = true
      · rw [if_pos hr]; exact memP_addDirs_left q ps' ds hr
      · rw [if_neg hr]
        exact memP_addDirs_left q ps' _ (memP_append_self q ds)
    · by_cases hr : memP r ds = true
      · rw [if_pos hr]; exact ih ds hq
      · rw [if_neg hr]; exact ih _ hq

theorem mem_initSegs_self (p : FPath) (h : p ≠ []) : p ∈ initSegs p := by
  induction p with
  | nil => exact absurd rfl h
  | cons s rest ih =>
    rw [initSegs]
    rcases eq_or_ne rest [] with hr | hr
    · subst hr; simp
    · right
      exact List.mem_map.2 ⟨rest, ih hr, rfl⟩

theorem ensureDir_files (fs : FS) (p : FPath) (fs' : FS)
    (h : ensureDirectoryExists fs p = some fs') : fs'.files = fs.files := by
  unfold ensureDirectoryExists FS.mkdirRec at h
  split at h
  · injection h with h; rw [← h]
  · split at h
    · injection h with h; rw [← h]
    · cases h

theorem ensureDir_again (fs fs' : FS) (p : FPath)
    (h : ensureDirectoryExists fs p = some fs') :
    ensureDirectoryExists fs' p = some fs' := by
  unfold ensureDirectoryExists at h
  by_cases he : fs.existsSync p = true
  · rw [if_pos he] at h
    injection h with h
    subst h
    rw [ensureDirectoryExists, if_pos he]
  · rw [if_neg he] at h
    unfold FS.mkdirRec at h
    by_cases hall : (initSegs p).all (fun q => !fs.isFile q) = true
    · rw [if_pos hall] at h
      injection h with h
      subst h
      have hd : FS.isDir ⟨fs.files, addDirs fs.dirs (initSegs p)⟩ p = true := by
        rcases eq_or_ne p [] with hp | hp
        · simp [FS.isDir, hp]
        · have hm : p ∈ initSegs p := mem_initSegs_self p hp
          simp [FS.isDir, memP_addDirs_of_mem p (initSegs p) fs.dirs hm]
      rw [ensureDirectoryExists, if_pos (by simp [FS.existsSync, hd])]
    · rw [if_neg hall] at h; cases h

theorem writeFile_ok (fs : FS) (p : FPath) (c : Str) (fs' : FS)
    (h : fs.writeFile p c = some fs') :
    fs.isDir p = false ∧ fs.isDir p.dropLast = true ∧
      fs' = ⟨setF fs.files p c, fs.dirs⟩ := by
  unfold FS.writeFile at h
  split at h
  · cases h
  case isFalse h1 =>
    split at h
    case isTrue h2 =>
      injection h with h
      exact ⟨by simpa using h1, h2, h.symm⟩
    · cases h

theorem writeFile_intro (fs : FS) (p : FPath) (c : Str)
    (h1 : fs.isDir p = false) (h2 : fs.isDir p.dropLast = true) :
    fs.writeFile p c = some ⟨setF fs.files p c, fs.dirs⟩ := by
  rw [FS.writeFile, if_neg (by simp [h1]), if_pos h2]

theorem readFile_writeFile_self (fs fs' : FS) (p : FPath) (c : Str)
    (h : fs.writeFile p c = some fs') : fs'.readFile p = some c := by
  obtain ⟨-, -, h3⟩ := writeFile_ok fs p c fs' h
  subst h3
  simp [FS.readFile, lookupF_setF_self]

theorem readFile_none_of_not_exists (fs : FS) (p : FPath)
    (h : fs.existsSync p = false) : fs.readFile p = none := by
  unfold FS.existsSync FS.isFile at h
  cases hr : fs.readFile p with
  | none => rfl
  | some v => rw [hr] at h; simp at h

/-! ## Converter lemmas -/

/-- The trace a successful conversion appends. -/
def convTrace (render : Str → Str) (mdP tgtP : FPath) (md tmpl : Str) : List Ev :=
  [Ev.readF mdP, Ev.render, Ev.readF templatePath, Ev.mkDirs tgtP.dropLast,
   Ev.writeF tgtP (jsReplace tmpl contentToken (render md))]

theorem convertToHtml_ok_elim (render : Str → Str) (mdP tgtP : FPath) (st st' : St)
    (h : convertToHtml render mdP tgtP st = .ok st') :
    ∃ md tmpl fs4 fs5,
      st.fs.readFile mdP = some md ∧
      st.fs.readFile templatePath = some tmpl ∧
      ensureDirectoryExists st.fs tgtP.dropLast = some fs4 ∧
      fs4.writeFile tgtP (jsReplace tmpl contentToken (render md)) = some fs5 ∧
      st' = ⟨fs5, st.out, st.tr ++ convTrace render mdP tgtP md tmpl⟩ := by
  unfold convertToHtml at h
  cases hmd : st.fs.readFile mdP with
  | none => rw [hmd] at h; cases h
  | some md =>
    rw [hmd] at h
    dsimp only at h
    cases htm : st.fs.readFile templatePath with
    | none => rw [htm] at h; cases h
    | some tmpl =>
      rw [htm] at h
      dsimp only at h
      cases hen : ensureDirectoryExists st.fs tgtP.dropLast with
      | none => rw [hen] at h; cases h
      | some fs4 =>
        rw [hen] at h
        dsimp only at h
        cases hw : fs4.writeFile tgtP (jsReplace tmpl contentToken (render md)) with
        | none => rw [hw] at h; cases h
        | some fs5 =>
          rw [hw] at h
          injection h with h
          refine ⟨md, tmpl, fs4, fs5, rfl, rfl, rfl, hw, ?_⟩
          rw [← h]
          simp [convTrace]

theorem convertToHtml_ok_intro (render : Str → Str) (mdP tgtP : FPath) (st : St)
    (md tmpl : Str) (fs4 fs5 : FS)
    (hmd : st.fs.readFile mdP = some md)
    (htm : st.fs.readFile templatePath = some tmpl)
    (hen : ensureDirectoryExists st.fs tgtP.dropLast = some fs4)
    (hw : fs4.writeFile tgtP (jsReplace tmpl contentToken (render md)) = some fs5) :
    convertToHtml render mdP tgtP st =
      .ok ⟨fs5, st.out, st.tr ++ convTrace render mdP tgtP md tmpl⟩ := by
  unfold convertToHtml
  rw [hmd]
  dsimp only
  rw [htm]
  dsimp only
  rw [hen]
  dsimp only
  rw [hw]
  simp [convTrace]

theorem convertToHtml_error_elim (render : Str → Str) (mdP tgtP : FPath) (st e : St)
    (h : convertToHtml render mdP tgtP st = .error e) :
    e.fs.files = st.fs.files ∧ e.out = st.out := by
  unfold convertToHtml at h
  cases hmd : st.fs.readFile mdP with
  | none => rw [hmd] at h; injection h with h; rw [← h]; exact ⟨rfl, rfl⟩
  | some md =>
    rw [hmd] at h
    dsimp only at h
    cases htm : st.fs.readFile templatePath with
    | none => rw [htm] at h; injection h with h; rw [← h]; exact ⟨rfl, rfl⟩
    | some tmpl =>
      rw [htm] at h
      dsimp only at h
      cases hen : ensureDirectoryExists st.fs tgtP.dropLast with
      | none => rw [hen] at h; injection h with h; rw [← h]; exact ⟨rfl, rfl⟩
      | some fs4 =>
        rw [hen] at h
        dsimp only at h
        cases hw : fs4.writeFile tgtP (jsReplace tmpl contentToken (render md)) with
        | none =>
          rw [hw] at h
          injection h with h
          rw [← h]
          exact ⟨ensureDir_files st.fs tgtP.dropLast fs4 hen, rfl⟩
        | some fs5 => rw [hw] at h; cases h

theorem stepConvert_skip (render : Str → Str) (sR tR : FPath) (st : St) (f : Str)
    (h : st.fs.existsSync (sR ++ [f]) = false) :
    stepConvert render sR tR st f = .ok st := by
  simp [stepConvert, h]

theorem stepConvert_error_files (render : Str → Str) (sR tR : FPath) (st : St)
    (f : Str) (e : St) (h : stepConvert render sR tR st f = .error e) :
    e.fs.files = st.fs.files ∧ e.out = st.out := by
  unfold stepConvert at h
  dsimp only at h
  split at h
  · cases hc : convertToHtml render (sR ++ [f]) (tR ++ [jsReplace f mdExt htmlExt]) st with
    | error e' =>
      rw [hc] at h
      injection h with h
      rw [← h]
      exact convertToHtml_error_elim render _ _ st e' hc
    | ok st1 => rw [hc] at h; cases h
  · cases h

theorem processList_append_ok (render : Str → Str) (sR tR : FPath)
    (xs ys : List Str) :
    ∀ st st1 : St, processList render sR tR xs st = .ok st1 →
      processList render sR tR (xs ++ ys) st = processList render sR tR ys st1 := by
  induction xs with
  | nil =>
    intro st st1 h
    rw [processList] at h
    injection h with h
    subst h
    simp
  | cons g xs' ih =>
    intro st st1 h
    rw [List.cons_append]
    rw [processList] at h
    cases hs : stepConvert render sR tR st g with
    | error e => rw [hs] at h; cases h
    | ok st2 =>
      rw [hs] at h
      dsimp only at h
      rw [processList, hs]
      dsimp only
      exact ih st2 st1 h

theorem processList_cons_error (render : Str → Str) (sR tR : FPath) (f : Str)
    (rest : List Str) (st e : St)
    (h : stepConvert render sR tR st f = .error e) :
    processList render sR tR (f :: rest) st = .error e := by
  rw [processList, h]

/-! ## Claim theorems -/

/-- Extract the success state of a conversion result (default otherwise). -/
def exOk (x : Except St St) (d : St) : St :=
  match x with
  | .ok s => s
  | .error _ => d

/-- Extract the error state of a conversion result (default otherwise). -/
def exErr (x : Except St St) (d : St) : St :=
  match x with
  | .error s => s
  | .ok _ => d

/-- C1 (amended): for a template with exactly one occurrence of the token and
a rendered HTML string free of replacement escape sequences, the output
written by the conversion is the template with the HTML inserted at the
exact position of the token and every other byte unchanged. -/
theorem c1_template_insertion (render : Str → Str) (mdP tgtP : FPath)
    (st st' : St) (md tmpl b a : Str)
    (hmd : st.fs.readFile mdP = some md)
    (htm : st.fs.readFile templatePath = some tmpl)
    (hshape : tmpl = b ++ (contentToken ++ a))
    (hone : countOcc contentToken tmpl = 1)
    (hesc : escFree (render md) = true)
    (hok : convertToHtml render mdP tgtP st = .ok st') :
    st'.fs.readFile tgtP = some (b ++ render md ++ a) := by
  obtain ⟨md', tmpl', fs4, fs5, hmd', htm', hen, hw, hst⟩ :=
    convertToHtml_ok_elim render mdP tgtP st st' hok
  rw [hmd] at hmd'
  injection hmd' with hmd'
  rw [htm] at htm'
  injection htm' with htm'
  subst hmd'
  subst htm'
  have hone' : countOcc contentToken (b ++ (contentToken ++ a)) = 1 := by
    rw [← hshape]; exact hone
  have hj := jsReplace_insert contentToken b a (render md) hone' hesc
  have hr := readFile_writeFile_self fs4 fs5 tgtP _ hw
  rw [hshape, hj] at hr
  rw [hst]
  exact hr

/-- Source path of the concrete conversion scenarios. -/
def c1MdPath : FPath := ["m.md".toList]

/-- Target path of the concrete conversion scenarios. -/
def c1TgtPath : FPath := ["out".toList, "m.html".toList]

/-- A template with exactly one placeholder between `A` and `B`. -/
def c1Tmpl : Str := "A\x7b\x7bcontent\x7d\x7dB".toList

/-- Starting state of the concrete conversion scenarios: one source file and
the template. -/
def c1St : St :=
  ⟨⟨[(c1MdPath, "x".toList), (templatePath, c1Tmpl)], [["src".toList]]⟩, [], []⟩

/-- A renderer whose output is two dollar signs. -/
def c1Render : Str → Str := fun _ => "$$".toList

/-- Output written at the target by the dollar-sign scenario. -/
def c1Out : Option Str :=
  match convertToHtml c1Render c1MdPath c1TgtPath c1St with
  | .ok st => st.fs.readFile c1TgtPath
  | .error _ => none

/-- C1 counterexample: with a template holding exactly one token and a
rendered HTML of two dollar signs, the written output is `A$B`, not the
template with the HTML inserted (`A$$B`): the JavaScript `replace` method
interprets dollar escape sequences in the replacement string. -/
theorem c1_counterexample :
    countOcc contentToken c1Tmpl = 1 ∧
    c1Tmpl = "A".toList ++ (contentToken ++ "B".toList) ∧
    c1Out = some ("A$B".toList) ∧
    c1Out ≠ some ("A".toList ++ c1Render "x".toList ++ "B".toList) := by
  decide

/-- An escape-free renderer for the witness scenario. -/
def w1Render : Str → Str := fun _ => "h".toList

/-- C1 witness: the amended claim applied at a concrete escape-free input. -/
theorem c1_witness :
    (exOk (convertToHtml w1Render c1MdPath c1TgtPath c1St) c1St).fs.readFile
        c1TgtPath = some ("A".toList ++ w1Render "x".toList ++ "B".toList) :=
  c1_template_insertion w1Render c1MdPath c1TgtPath c1St
    (exOk (convertToHtml w1Render c1MdPath c1TgtPath c1St) c1St)
    ("x".toList) c1Tmpl ("A".toList) ("B".toList)
    (by decide) (by decide) (by decide) (by decide) (by decide) rfl

/-- C2: a successful conversion performs exactly, and in this order: read the
source, render it, read the template from its fixed location, ensure the
parent directory of the target, and write the substituted template to the target,
overwriting whatever was there; it prints nothing. -/
theorem c2_conversion_steps (render : Str → Str) (mdP tgtP : FPath)
    (st st' : St) (md tmpl : Str)
    (hmd : st.fs.readFile mdP = some md)
    (htm : st.fs.readFile templatePath = some tmpl)
    (hok : convertToHtml render mdP tgtP st = .ok st') :
    st'.tr = st.tr ++
      [Ev.readF mdP, Ev.render, Ev.readF templatePath, Ev.mkDirs tgtP.dropLast,
       Ev.writeF tgtP (jsReplace tmpl contentToken (render md))] ∧
    st'.fs.readFile tgtP = some (jsReplace tmpl contentToken (render md)) ∧
    st'.out = st.out := by
  obtain ⟨md', tmpl', fs4, fs5, hmd', htm', hen, hw, hst⟩ :=
    convertToHtml_ok_elim render mdP tgtP st st' hok
  rw [hmd] at hmd'
  injection hmd' with hmd'
  rw [htm] at htm'
  injection htm' with htm'
  subst hmd'
  subst htm'
  subst hst
  exact ⟨rfl, readFile_writeFile_self fs4 fs5 tgtP _ hw, rfl⟩

/-- C2 witness: the step sequence observed on a concrete conversion. -/
theorem c2_witness :
    (exOk (convertToHtml w1Render c1MdPath c1TgtPath c1St) c1St).tr =
      c1St.tr ++
        [Ev.readF c1MdPath, Ev.render, Ev.readF templatePath,
         Ev.mkDirs c1TgtPath.dropLast,
         Ev.writeF c1TgtPath (jsReplace c1Tmpl contentToken (w1Render "x".toList))] ∧
    (exOk (convertToHtml w1Render c1MdPath c1TgtPath c1St) c1St).fs.readFile
        c1TgtPath = some (jsReplace c1Tmpl contentToken (w1Render "x".toList)) ∧
    (exOk (convertToHtml w1Render c1MdPath c1TgtPath c1St) c1St).out = c1St.out :=
  c2_conversion_steps w1Render c1MdPath c1TgtPath c1St
    (exOk (convertToHtml w1Render c1MdPath c1TgtPath c1St) c1St)
    ("x".toList) c1Tmpl (by decide) (by decide) rfl

/-- C3: a manifest entry whose resolved source path does not exist contributes
nothing to the run: processing the list with that entry equals processing the
list without it, starting from the same state — no output file, no progress
line, no error, and the remaining entries are still processed. -/
theorem c3_missing_source_skipped (render : Str → Str) (sR tR : FPath)
    (f : Str) (rest : List Str) (st : St)
    (h : st.fs.existsSync (sR ++ [f]) = false) :
    processList render sR tR (f :: rest) st = processList render sR tR rest st := by
  rw [processList, stepConvert_skip render sR tR st f h]

/-- The identity renderer, used by concrete witness runs. -/
def idRender : Str → Str := fun s => s

/-- The empty starting state. -/
def emptySt : St := ⟨⟨[], []⟩, [], []⟩

/-- C3 witness: the skip equation applied to a concrete missing entry. -/
theorem c3_witness :
    processList idRender gSrcRoot gTgtRoot ["x.md".toList] emptySt =
      processList idRender gSrcRoot gTgtRoot [] emptySt :=
  c3_missing_source_skipped idRender gSrcRoot gTgtRoot ("x.md".toList) [] emptySt
    (by decide)

/-- C4: when nothing exists at the fixed template location, a conversion of
any source to any target fails with an error, and the filesystem — in
particular the target file — is left completely unchanged. -/
theorem c4_missing_template_fails (render : Str → Str) (mdP tgtP : FPath)
    (st : St) (h : st.fs.existsSync templatePath = false) :
    ∃ e, convertToHtml render mdP tgtP st = .error e ∧ e.fs = st.fs := by
  have htm : st.fs.readFile templatePath = none :=
    readFile_none_of_not_exists st.fs templatePath h
  unfold convertToHtml
  cases hmd : st.fs.readFile mdP with
  | none => exact ⟨st, rfl, rfl⟩
  | some md =>
    dsimp only
    rw [htm]
    exact ⟨_, rfl, rfl⟩

/-- A state holding only a source document, no template. -/
def c4St : St := ⟨⟨[(c1MdPath, "x".toList)], [["src".toList]]⟩, [], []⟩

/-- C4 witness: the failure applied to a concrete template-less state. -/
theorem c4_witness :
    ∃ e, convertToHtml idRender c1MdPath c1TgtPath c4St = .error e ∧
      e.fs = c4St.fs :=
  c4_missing_template_fails idRender c1MdPath c1TgtPath c4St (by decide)

/-- C5 (amended): when a regular file occupies the path, `ensureDirectoryExists`
does not fail: the existence check sees the file, directory creation is
skipped, and the call succeeds leaving the filesystem unchanged (the error
only surfaces later, when writing into the supposed directory). -/
theorem c5_file_occupied_noop (fs : FS) (p : FPath) (h : fs.isFile p = true) :
    ensureDirectoryExists fs p = some fs := by
  rw [ensureDirectoryExists, if_pos (by simp [FS.existsSync, h])]

/-- A filesystem with a regular file at the path `blocked`. -/
def c5Fs : FS := ⟨[(["blocked".toList], "x".toList)], []⟩

/-- C5 counterexample: with a regular file at the path, `ensureDirectoryExists`
succeeds (returning the unchanged filesystem) instead of failing. -/
theorem c5_counterexample :
    c5Fs.isFile ["blocked".toList] = true ∧
    ensureDirectoryExists c5Fs ["blocked".toList] = some c5Fs ∧
    ¬ ensureDirectoryExists c5Fs ["blocked".toList] = none := by
  decide

/-- C5 witness: the amended no-failure behaviour at the concrete blocked path. -/
theorem c5_witness : ensureDirectoryExists c5Fs ["blocked".toList] = some c5Fs :=
  c5_file_occupied_noop c5Fs ["blocked".toList] (by decide)

/-- C6 (amended): whenever `ensureDirectoryExists` succeeds, calling it again
succeeds and leaves the filesystem in the same state; in particular it never
fails when the directory already exists. -/
theorem c6_ensure_idempotent :
    (∀ fs fs' p, ensureDirectoryExists fs p = some fs' →
      ensureDirectoryExists fs' p = some fs') ∧
    (∀ (fs : FS) (p : FPath), fs.isDir p = true →
      ensureDirectoryExists fs p = some fs) :=
  ⟨fun fs fs' p h => ensureDir_again fs fs' p h,
   fun fs p h => by
    rw [ensureDirectoryExists, if_pos (by simp [FS.existsSync, h])]⟩

/-- A filesystem with a regular file at `a`, blocking creation of `a/b`. -/
def c6Fs : FS := ⟨[(["a".toList], "x".toList)], []⟩

/-- The path `a/b` whose ancestor is occupied by a file. -/
def c6P : FPath := ["a".toList, "b".toList]

/-- C6 counterexample: the claim quantifies over every path, but on a path
whose ancestor is occupied by a regular file the first call already fails,
so calling twice does not succeed both times. -/
theorem c6_counterexample : ensureDirectoryExists c6Fs c6P = none := by decide

/-- The filesystem after creating the directory `d` in the empty filesystem. -/
def c6Fs2 : FS := ⟨[], [["d".toList]]⟩

/-- C6 witness: a successful creation followed by a second call returning the
same state. -/
theorem c6_witness :
    ensureDirectoryExists (⟨[], []⟩ : FS) ["d".toList] = some c6Fs2 ∧
    ensureDirectoryExists c6Fs2 ["d".toList] = some c6Fs2 :=
  ⟨by decide,
   c6_ensure_idempotent.1 ⟨[], []⟩ c6Fs2 ["d".toList] (by decide)⟩

/-- C7: whenever any single conversion of the run throws — one of the
guideline loop after the entries before it succeeded (first part), or one of
the process loop after the guideline loop and the process entries before it
succeeded (second part) — `run` evaluates to that very error, so the error is
propagated unhandled to the caller and no further conversion is attempted,
and the error state holds exactly the files present before the failing
conversion: every file converted before it remains on disk unchanged. -/
theorem c7_error_aborts_run :
    (∀ (render : Str → Str) (pre : List Str) (f : Str) (rest : List Str)
        (st st1 e : St),
      pre ++ f :: rest = guidelines →
      processList render gSrcRoot gTgtRoot pre st = .ok st1 →
      stepConvert render gSrcRoot gTgtRoot st1 f = .error e →
      run render st = .error e ∧ e.fs.files = st1.fs.files) ∧
    (∀ (render : Str → Str) (pre : List Str) (f : Str) (rest : List Str)
        (st stG st1 e : St),
      pre ++ f :: rest = processFiles →
      processList render gSrcRoot gTgtRoot guidelines st = .ok stG →
      processList render pSrcRoot pTgtRoot pre stG = .ok st1 →
      stepConvert render pSrcRoot pTgtRoot st1 f = .error e →
      run render st = .error e ∧ e.fs.files = st1.fs.files) := by
  constructor
  · intro render pre f rest st st1 e hg hpre hf
    have hlist : processList render gSrcRoot gTgtRoot (pre ++ f :: rest) st
        = .error e := by
      rw [processList_append_ok render gSrcRoot gTgtRoot pre (f :: rest) st st1 hpre]
      exact processList_cons_error render gSrcRoot gTgtRoot f rest st1 e hf
    refine ⟨?_, (stepConvert_error_files render gSrcRoot gTgtRoot st1 f e hf).1⟩
    rw [run, ← hg, hlist]
  · intro render pre f rest st stG st1 e hp hG hpre hf
    have hlist : processList render pSrcRoot pTgtRoot (pre ++ f :: rest) stG
        = .error e := by
      rw [processList_append_ok render pSrcRoot pTgtRoot pre (f :: rest) stG st1 hpre]
      exact processList_cons_error render pSrcRoot pTgtRoot f rest st1 e hf
    refine ⟨?_, (stepConvert_error_files render pSrcRoot pTgtRoot st1 f e hf).1⟩
    rw [run, hG]
    dsimp only
    rw [← hp]
    exact hlist

/-- First guideline filename. -/
def gfile1 : Str := "01-component-guidelines.md".toList

/-- Second guideline filename. -/
def gfile2 : Str := "02-scss-guidelines.md".toList

/-- Third guideline filename. -/
def gfile3 : Str := "03-template-guidelines.md".toList

/-- The guideline manifest minus its first entry. -/
def gRest : List Str :=
  [gfile2, gfile3, "04-store-ngrx-guidelines.md".toList,
   "05-services-guidelines.md".toList,
   "06-directives-pipes-guidelines.md".toList]

/-- A state where the first guideline source exists but the template does not,
so its conversion throws. -/
def c7St : St :=
  ⟨⟨[(gSrcRoot ++ [gfile1], "x".toList)], [["src".toList], gSrcRoot]⟩, [], []⟩

/-- The error state of that failing conversion. -/
def c7E : St := exErr (stepConvert idRender gSrcRoot gTgtRoot c7St gfile1) c7St

/-- The process-document filename. -/
def pfile1 : Str := "pr-submission-process.md".toList

/-- A state where no guideline source exists (so the guideline loop succeeds
by skipping everything), the process source exists, and the template does
not, so the process-file conversion throws. -/
def c7PSt : St :=
  ⟨⟨[(pSrcRoot ++ [pfile1], "x".toList)], [["src".toList], pSrcRoot]⟩, [], []⟩

/-- The error state of that failing process-file conversion. -/
def c7PE : St := exErr (stepConvert idRender pSrcRoot pTgtRoot c7PSt pfile1) c7PSt

/-- C7 witness: the abort behaviour exercised on both loops — a throw at the
first guideline conversion, and a throw at the process-file conversion after
the whole guideline loop succeeded. -/
theorem c7_witness :
    (run idRender c7St = .error c7E ∧ c7E.fs.files = c7St.fs.files) ∧
    (run idRender c7PSt = .error c7PE ∧ c7PE.fs.files = c7PSt.fs.files) :=
  ⟨c7_error_aborts_run.1 idRender [] gfile1 gRest c7St c7St c7E rfl rfl rfl,
   c7_error_aborts_run.2 idRender [] pfile1 [] c7PSt c7PSt c7PSt c7PE
     rfl rfl rfl rfl⟩

/-- The starting filesystem of the three-file scenario: the first and third
guideline sources exist (with arbitrary contents), the second is absent, and
the template is present. -/
def c8St (c1 c3 t : Str) : St :=
  ⟨⟨[(gSrcRoot ++ [gfile1], c1), (gSrcRoot ++ [gfile3], c3), (templatePath, t)],
    [["src".toList], gSrcRoot]⟩, [], []⟩

/-- Mirrored target path of the first guideline. -/
def c8Tgt1 : FPath := gTgtRoot ++ [jsReplace gfile1 mdExt htmlExt]

/-- Mirrored target path of the second guideline. -/
def c8Tgt2 : FPath := gTgtRoot ++ [jsReplace gfile2 mdExt htmlExt]

/-- Mirrored target path of the third guideline. -/
def c8Tgt3 : FPath := gTgtRoot ++ [jsReplace gfile3 mdExt htmlExt]

/-- C8: on a manifest of three guideline filenames of which exactly the second
is absent, the loop succeeds producing exactly two output files at the
mirrored target paths (and no third file: the file count rises from 3 to 5 and
nothing exists at the second target), and emits exactly the two progress lines
of the converted documents, in manifest order. -/
theorem c8_three_file_scenario (render : Str → Str) (c1 c3 t : Str) :
    ∃ st',
      processList render gSrcRoot gTgtRoot [gfile1, gfile2, gfile3]
          (c8St c1 c3 t) = .ok st' ∧
      st'.out = [logLine (gSrcRoot ++ [gfile1]) c8Tgt1,
                 logLine (gSrcRoot ++ [gfile3]) c8Tgt3] ∧
      st'.fs.readFile c8Tgt1 = some (jsReplace t contentToken (render c1)) ∧
      st'.fs.readFile c8Tgt3 = some (jsReplace t contentToken (render c3)) ∧
      st'.fs.readFile c8Tgt2 = none ∧
      st'.fs.files.length = 5 :=
  ⟨_, rfl, rfl, rfl, rfl, rfl, rfl⟩

/-- C9: running the converter a second time, with the source and the template
unchanged by the first run, succeeds and writes byte-identical output at the
target. -/
theorem c9_rerun_identical (render : Str → Str) (mdP tgtP : FPath)
    (st st1 : St)
    (h1 : convertToHtml render mdP tgtP st = .ok st1)
    (hsrc : st1.fs.readFile mdP = st.fs.readFile mdP)
    (htmp : st1.fs.readFile templatePath = st.fs.readFile templatePath) :
    ∃ st2, convertToHtml render mdP tgtP st1 = .ok st2 ∧
      st2.fs.readFile tgtP = st1.fs.readFile tgtP := by
  obtain ⟨md, tmpl, fs4, fs5, hmd, htm, hen, hw, hst⟩ :=
    convertToHtml_ok_elim render mdP tgtP st st1 h1
  obtain ⟨hnd, hpd, hfs5⟩ := writeFile_ok fs4 tgtP _ fs5 hw
  subst hst
  dsimp only at hsrc htmp
  have hmd2 : fs5.readFile mdP = some md := hsrc.trans hmd
  have htm2 : fs5.readFile templatePath = some tmpl := htmp.trans htm
  have hdirs : fs5.dirs = fs4.dirs := by rw [hfs5]
  have hpd5 : fs5.isDir tgtP.dropLast = true := by
    unfold FS.isDir at hpd ⊢; rw [hdirs]; exact hpd
  have hnd5 : fs5.isDir tgtP = false := by
    unfold FS.isDir at hnd ⊢; rw [hdirs]; exact hnd
  have hen2 : ensureDirectoryExists fs5 tgtP.dropLast = some fs5 := by
    rw [ensureDirectoryExists, if_pos (by simp [FS.existsSync, hpd5])]
  have hw2 := writeFile_intro fs5 tgtP (jsReplace tmpl contentToken (render md))
    hnd5 hpd5
  refine ⟨_, convertToHtml_ok_intro render mdP tgtP
    ⟨fs5, st.out, st.tr ++ convTrace render mdP tgtP md tmpl⟩ md tmpl fs5
    ⟨setF fs5.files tgtP (jsReplace tmpl contentToken (render md)), fs5.dirs⟩
    hmd2 htm2 hen2 hw2, ?_⟩
  have hr1 : fs5.readFile tgtP = some (jsReplace tmpl contentToken (render md)) :=
    readFile_writeFile_self fs4 fs5 tgtP _ hw
  have hr2 : (⟨setF fs5.files tgtP (jsReplace tmpl contentToken (render md)),
      fs5.dirs⟩ : FS).readFile tgtP
      = some (jsReplace tmpl contentToken (render md)) := by
    simp [FS.readFile, lookupF_setF_self]
  exact hr2.trans hr1.symm

/-- C9 witness: the rerun applied after a concrete first conversion. -/
theorem c9_witness :
    ∃ st2, convertToHtml w1Render c1MdPath c1TgtPath
        (exOk (convertToHtml w1Render c1MdPath c1TgtPath c1St) c1St) = .ok st2 ∧
      st2.fs.readFile c1TgtPath =
        (exOk (convertToHtml w1Render c1MdPath c1TgtPath c1St) c1St).fs.readFile
          c1TgtPath :=
  c9_rerun_identical w1Render c1MdPath c1TgtPath c1St
    (exOk (convertToHtml w1Render c1MdPath c1TgtPath c1St) c1St)
    rfl (by decide) (by decide)

/-- C10: for a manifest entry whose resolved source path does not exist, the
loop iteration returns the state completely unchanged — no file read, no
directory creation, no write, no output — because the existence check comes
before the conversion call. -/
theorem c10_missing_source_no_effect (render : Str → Str) (sR tR : FPath)
    (f : Str) (st : St) (h : st.fs.existsSync (sR ++ [f]) = false) :
    stepConvert render sR tR st f = .ok st :=
  stepConvert_skip render sR tR st f h

/-- C10 witness: the unchanged-state result at a concrete missing entry. -/
theorem c10_witness :
    stepConvert idRender gSrcRoot gTgtRoot emptySt ("x.md".toList) = .ok emptySt :=
  c10_missing_source_no_effect idRender gSrcRoot gTgtRoot ("x.md".toList) emptySt
    (by decide)
